import Mathlib

/-!
Verification of the tetripin secret-store encryption and migration engine.

This development shallowly embeds the Python sources of the `tetripin`
repository (`src/tetripin/utils.py`, `src/tetripin/cli.py` and
`src/tetripin/tetripin.py`).  Strings are modelled as lists of Unicode code
points (`List Nat`); the ASCII fragments of Python's `str.lower` and
`str.strip` are modelled exactly.  The external `cryptography.fernet.Fernet
cipher is modelled symbolically, following its documented contract: a token
binds the key and a nonce to the message, and decryption succeeds exactly
when the same key is presented, otherwise it raises `InvalidToken`.
-/

namespace Tetripin

/-- A Python string, as a list of Unicode code points. -/
abbrev PyStr := List Nat

/-- Whitespace test used by Python's `str.strip` (ASCII fragment:
space, tab, newline, vertical tab, form feed, carriage return). -/
def isSpace (c : Nat) : Bool :=
  decide (c = 32 ∨ c = 9 ∨ c = 10 ∨ c = 11 ∨ c = 12 ∨ c = 13)

/-- Python's `str.lower` on a single character (ASCII fragment:
`A`..`Z`, code points 65..90, map to 97..122; everything else unchanged). -/
def pyLower (c : Nat) : Nat :=
  if 65 ≤ c ∧ c ≤ 90 then c + 32 else c

/-- Lower-case every character, as Python's `str.lower`. -/
def mapLower (s : PyStr) : PyStr := s.map pyLower

/-- Remove leading whitespace (the left half of Python's `str.strip`). -/
def ltrim (s : PyStr) : PyStr := s.dropWhile isSpace

/-- Remove trailing whitespace (the right half of Python's `str.strip`). -/
def rtrim (s : PyStr) : PyStr := (s.reverse.dropWhile isSpace).reverse

/-- Python's `str.strip`: remove leading and trailing whitespace. -/
def pyStrip (s : PyStr) : PyStr := rtrim (ltrim s)

/-- Label normalization as in `build_secret_map_from_toml`
(`utils.py` line 195): `label.lower().strip()`. -/
def normalizeLabel (s : PyStr) : PyStr := pyStrip (mapLower s)

/-- Query normalization as in the `gen` command (`cli.py` line 104):
`account.strip().lower()`. -/
def genNormalize (s : PyStr) : PyStr := mapLower (pyStrip s)

/-- Identity of a symmetric key.  `derived` is the PBKDF2-HMAC-SHA256
derivation of `EncryptionKey.from_password` (`utils.py` lines 41-55),
indexed symbolically by the password and the stored salt string: the same
pair always yields the same key, distinct pairs yield distinct keys.
`random` stands for a `Fernet.generate_key()` key. -/
inductive KeyId where
  | derived (password : PyStr) (salt : PyStr)
  | random (n : Nat)
deriving DecidableEq

/-- The `EncryptionKey` wrapper class of `utils.py` (lines 29-72). -/
structure EncryptionKey where
  id : KeyId
deriving DecidableEq

/-- `EncryptionKey.from_password` (`utils.py` lines 41-55): deterministic
PBKDF2 derivation from the typed password and the stored salt string. -/
def EncryptionKey.from_password (password : PyStr) (salt : PyStr) : EncryptionKey :=
  ⟨KeyId.derived password salt⟩

/-- A Python string value that may be a plain string or the textual form of
a Fernet token.  The token constructor records the encrypting key, the
random nonce of the call, and the wrapped message, per the Fernet contract
(the utf8 encode/decode pair of `_to_utf8`/`_from_utf8` in `utils.py` is a
bijection and is folded into this representation). -/
inductive Text where
  | plain (s : PyStr)
  | token (key : KeyId) (nonce : Nat) (msg : Text)
deriving DecidableEq

/-- Error outcomes of the engine.  `tetripin` is the repository's typed
`TetripinError`; `invalidToken` is `cryptography.fernet.InvalidToken`;
`attributeError` and `keyError` are *untyped* Python crashes
(`click.fail` does not exist; `data["salt"]` on a missing key). -/
inductive Err where
  | tetripin
  | invalidToken
  | attributeError
  | keyError
deriving DecidableEq

/-- `EncryptionKey.encrypt_to_text` (`utils.py` lines 68-69): produce a
fresh authenticated token under this key. -/
def EncryptionKey.encrypt_to_text (k : EncryptionKey) (nonce : Nat) (t : Text) : Text :=
  Text.token k.id nonce t

/-- `EncryptionKey.decrypt_from_text` (`utils.py` lines 71-72): Fernet
decryption, per its contract — returns the wrapped message when the token
was produced under the same key, and raises `InvalidToken` on a token of a
different key or on input that is not a token at all. -/
def EncryptionKey.decrypt_from_text (k : EncryptionKey) (t : Text) : Except Err Text :=
  match t with
  | Text.plain _ => Except.error Err.invalidToken
  | Text.token kid _ msg =>
      if kid = k.id then Except.ok msg else Except.error Err.invalidToken

/-- Python `str.strip` applied to a stored secret value
(`utils.py` line 197).  A Fernet token is URL-safe base64 ASCII with no
whitespace, so stripping it is the identity. -/
def Text.strip : Text → Text
  | Text.plain s => Text.plain (pyStrip s)
  | Text.token k n m => Text.token k n m

/-- Python falsiness of a string (`if not secret`, `utils.py` line 198):
only the empty string is falsy; a Fernet token is never empty. -/
def Text.isEmptyText : Text → Bool
  | Text.plain s => s.isEmpty
  | Text.token _ _ _ => false

/-- Association list used to model a Python `dict` (insertion ordered). -/
abbrev SecretsMap := List (PyStr × Text)

/-- Keys of the modelled dict, in order. -/
def alKeys (m : SecretsMap) : List PyStr := m.map Prod.fst

/-- Python `dict` assignment `d[k] = v`: replace in place when the key is
present, append otherwise. -/
def alSet (m : SecretsMap) (k : PyStr) (v : Text) : SecretsMap :=
  match m with
  | [] => [(k, v)]
  | (k', v') :: rest => if k' = k then (k, v) :: rest else (k', v') :: alSet rest k v

/-- The parsed secrets file, after `load_secrets_from_toml` has checked
that `format_version` and the `account` section are present
(`utils.py` lines 145-187).  Each account entry is reduced to its sole
`secret` field; an entry missing it behaves as the empty string. -/
structure StoreData where
  format_version : Nat
  account : List (PyStr × Text)
  salt : Option PyStr
deriving DecidableEq

/-- The shared account loop of `build_secret_map_from_toml`
(`utils.py` lines 194-205) and `get_secrets` (`tetripin.py` lines 73-84):
normalize each label, skip labels that normalize to empty, strip the
stored secret, fail with `emptyErr` when it is empty, decrypt it when
`key` is present, and assign into the result dict.  The two callers differ
only in the decryption condition and in the error they raise on an empty
secret. -/
def resolveCore (key : Option EncryptionKey) (emptyErr : Err) :
    List (PyStr × Text) → SecretsMap → Except Err SecretsMap
  | [], acc => Except.ok acc
  | (label, stored) :: rest, acc =>
      let l := normalizeLabel label
      if l = [] then resolveCore key emptyErr rest acc
      else
        let secret := stored.strip
        if secret.isEmptyText then Except.error emptyErr
        else
          match key with
          | none => resolveCore key emptyErr rest (alSet acc l secret)
          | some k =>
              match k.decrypt_from_text secret with
              | Except.ok pt => resolveCore key emptyErr rest (alSet acc l pt)
              | Except.error e => Except.error e

/-- `build_secret_map_from_toml` (`utils.py` lines 190-206): decrypts
exactly when a key object is supplied (`if key:`), raising the typed
`TetripinError` on an empty secret. -/
def buildSecretMap (key : Option EncryptionKey) (data : StoreData) : Except Err SecretsMap :=
  resolveCore key Err.tetripin data.account []

/-- `get_secrets` (`tetripin.py` lines 67-85): decrypts exactly when
`format_version > 1`, and its empty-secret branch calls the non-existent
`click.fail`, an untyped `AttributeError`. -/
def getSecrets (key : EncryptionKey) (data : StoreData) : Except Err SecretsMap :=
  resolveCore (if data.format_version > 1 then some key else none)
    Err.attributeError data.account []

/-- Re-encrypt a resolved map under a key: the loop
`data["account"][account] = {"secret": new_key.encrypt_to_text(secret)}`
(`cli.py` lines 272-273; likewise `tetripin.py` lines 158-161). -/
def reencrypt (k : EncryptionKey) (nonce : Nat) (m : SecretsMap) : List (PyStr × Text) :=
  m.map fun p => (p.1, Text.token k.id nonce p.2)

/-- The store written by `upgrade_config` (`cli.py` lines 258-276):
`format_version = 3`, the freshly generated salt, and every resolved
secret re-encrypted under the new password-derived key. -/
def upgradedStore (m : SecretsMap) (nk : EncryptionKey) (nonce : Nat)
    (salt : PyStr) : StoreData :=
  ⟨3, reencrypt nk nonce m, some salt⟩

/-- Observable side effects of `upgrade_config`, in program order:
the `nothing to do` echo, the `shutil.copyfile` backup, the PBKDF2 key
derivation, a `keyring.set_password` call, and a full rewrite of the
secrets file. -/
inductive Ev where
  | echoNothingToDo
  | backup
  | derive (password salt : PyStr)
  | keyringSet (k : EncryptionKey)
  | fileWrite (d : StoreData)
deriving DecidableEq

/-- Outcome of `upgrade_config`: either a `ctx.fail` exit carrying the
side effects already performed, or success with the full effect trace. -/
inductive UpgradeOut where
  | fail (trace : List Ev) (e : Err)
  | ok (trace : List Ev)
deriving DecidableEq

/-- `upgrade_config` (`cli.py` lines 234-283) as an effect-trace function.
Program order as in the source: the `format_version == 3` check only
echoes and does not return (line 245-246); the backup copy is made
(lines 252-254); the resolved map is built under the keyring key
(lines 263-266, `ctx.fail` on error); the new key is derived from the
prompted password and the fresh salt (line 269) and immediately cached
(line 270); the re-encrypted store is written (lines 272-276); the key is
cached a second time (line 278).  `saltBytes` stands for the base64-encoded
`secrets.token_bytes(16)` of line 257, `nonce` for the Fernet nonce of the
re-encryption calls. -/
def upgradeConfig (store : StoreData) (oldKey : Option EncryptionKey)
    (password : PyStr) (saltBytes : PyStr) (nonce : Nat) : UpgradeOut :=
  let pre : List Ev :=
    if store.format_version = 3 then [Ev.echoNothingToDo] else []
  match buildSecretMap oldKey store with
  | Except.error e => UpgradeOut.fail (pre ++ [Ev.backup]) e
  | Except.ok m =>
      let nk := EncryptionKey.from_password password saltBytes
      UpgradeOut.ok (pre ++
        [Ev.backup, Ev.derive password saltBytes, Ev.keyringSet nk,
         Ev.fileWrite (upgradedStore m nk nonce saltBytes), Ev.keyringSet nk])

/-- The V1-to-V2 conversion of the older CLI revision
(`tetripin.py` lines 150-166): resolve all plaintext secrets (no
decryption, since `format_version = 1`), then write a `format_version = 2`
store with every secret encrypted under the keyring key and no salt. -/
def convertV1ToV2 (key : EncryptionKey) (nonce : Nat) (store : StoreData) :
    Except Err StoreData :=
  match getSecrets key store with
  | Except.error e => Except.error e
  | Except.ok m => Except.ok ⟨2, reencrypt key nonce m, none⟩

/-- Outcome reported by the `unlock` command. -/
inductive UnlockOut where
  | keyErrorCrash
  | failTetripin
  | failIncorrectPassword
  | unlocked
deriving DecidableEq

/-- Final state after running `unlock`: the reported outcome, the key
cache, and the store file content. -/
structure UnlockRes where
  out : UnlockOut
  keyringAfter : Option EncryptionKey
  fileAfter : StoreData
deriving DecidableEq

/-- `unlock` (`cli.py` lines 286-308): read the store, access
`data["salt"]` (an untyped `KeyError` when the field is absent), derive
the key from the typed password, verify it by resolving every secret
(`ctx.fail` with the typed message on `TetripinError`, with
`This password is incorrect` on `InvalidToken`), and only on success
store the derived key in the keyring.  The store file is never
rewritten. -/
def unlock (store : StoreData) (keyring0 : Option EncryptionKey)
    (password : PyStr) : UnlockRes :=
  match store.salt with
  | none => ⟨UnlockOut.keyErrorCrash, keyring0, store⟩
  | some salt =>
      let key := EncryptionKey.from_password password salt
      match buildSecretMap (some key) store with
      | Except.error Err.invalidToken =>
          ⟨UnlockOut.failIncorrectPassword, keyring0, store⟩
      | Except.error _ => ⟨UnlockOut.failTetripin, keyring0, store⟩
      | Except.ok _ => ⟨UnlockOut.unlocked, some key, store⟩

/-- Outcome of the `add` command. -/
inductive AddOut where
  | clickFailCrash
  | keyNoneCrash
  | added (newStore : StoreData)
deriving DecidableEq

/-- `add` (`cli.py` lines 119-142): the duplicate check
`if account in data["account"]` compares the *raw* label against the raw
stored keys; its body calls the non-existent `click.fail`, an untyped
`AttributeError`.  Under `format_version = 1` the secret is stored in
clear text, otherwise it is encrypted with `ctx.obj["key"]` (an untyped
crash when that key is `None`).  The raw label is stored as given. -/
def addAccount (store : StoreData) (key : Option EncryptionKey)
    (account : PyStr) (secret : PyStr) (nonce : Nat) : AddOut :=
  if account ∈ alKeys store.account then AddOut.clickFailCrash
  else if store.format_version = 1 then
    AddOut.added ⟨store.format_version,
      alSet store.account account (Text.plain secret), store.salt⟩
  else
    match key with
    | none => AddOut.keyNoneCrash
    | some k =>
        AddOut.added ⟨store.format_version,
          alSet store.account account (Text.token k.id nonce (Text.plain secret)),
          store.salt⟩

/-- The initial store written by `ensure_secrets_file` when no secrets
file exists (`utils.py` lines 118-129): `format_version = 2`, an empty
`account` table, and a `salt` field holding `secrets.token_bytes(16)`. -/
def initialStoreUtils (saltBytes : PyStr) : StoreData :=
  ⟨2, [], some saltBytes⟩

/-- The initial store written by the older CLI revision
(`tetripin.py` lines 130-133): `format_version = 2`, an empty `account`
table, and no salt. -/
def initialStoreTetripin : StoreData :=
  ⟨2, [], none⟩

/-- A map is well-formed when every key is a nonempty normalized label and
keys are pairwise distinct — the invariant of the dicts produced by the
account loop. -/
def goodMap (m : SecretsMap) : Prop :=
  (∀ p ∈ m, normalizeLabel p.1 = p.1 ∧ p.1 ≠ []) ∧ (alKeys m).Nodup

/-- Effectful map over a list that stops at the first error. -/
def exceptMapM (f : α → Except Err β) : List α → Except Err (List β)
  | [] => Except.ok []
  | a :: l =>
      match f a with
      | Except.error e => Except.error e
      | Except.ok b =>
          match exceptMapM f l with
          | Except.error e => Except.error e
          | Except.ok bs => Except.ok (b :: bs)

/-- Per-entry behavior of `resolve_secrets` as the amended claim words it:
normalize the label and skip the entry when the normalized label is empty,
strip the stored secret and fail when it is empty, and decrypt it exactly
when a key object was supplied — the store's `format_version` plays no
role. -/
def entryResolve (key : Option EncryptionKey) (emptyErr : Err)
    (p : PyStr × Text) : Except Err (Option (PyStr × Text)) :=
  if normalizeLabel p.1 = [] then Except.ok none
  else if (p.2.strip).isEmptyText then Except.error emptyErr
  else
    match key with
    | none => Except.ok (some (normalizeLabel p.1, p.2.strip))
    | some k =>
        match k.decrypt_from_text p.2.strip with
        | Except.ok pt => Except.ok (some (normalizeLabel p.1, pt))
        | Except.error e => Except.error e

/-- Collect the surviving entries into a dict by repeated assignment. -/
def specAssemble (acc : SecretsMap) (os : List (Option (PyStr × Text))) : SecretsMap :=
  (os.filterMap id).foldl (fun m p => alSet m p.1 p.2) acc

/-- Phase-structured reference semantics of `resolve_secrets`, assembled
from `entryResolve` over all entries. -/
def resolveSpec (key : Option EncryptionKey) (emptyErr : Err)
    (es : List (PyStr × Text)) : Except Err SecretsMap :=
  match exceptMapM (entryResolve key emptyErr) es with
  | Except.error e => Except.error e
  | Except.ok os => Except.ok (specAssemble [] os)

/-- Recognize a `keyring.set_password` event. -/
def isKeyringSetEv : Ev → Bool
  | Ev.keyringSet _ => true
  | _ => false

/-- Recognize a store-file rewrite event. -/
def isFileWriteEv : Ev → Bool
  | Ev.fileWrite _ => true
  | _ => false

/-- The ordering property asserted by the claim: every caching of the new
key happens only after the store file has been written. -/
def cachedOnlyAfterWrite (tr : List Ev) : Prop :=
  ∀ i j : Fin tr.length,
    isKeyringSetEv (tr.get i) = true → isFileWriteEv (tr.get j) = true →
    (j : Nat) < (i : Nat)

theorem pyLower_idem (c : Nat) : pyLower (pyLower c) = pyLower c := by
  by_cases h : 65 ≤ c ∧ c ≤ 90
  · have e : pyLower c = c + 32 := by rw [pyLower, if_pos h]
    have h2 : ¬(65 ≤ c + 32 ∧ c + 32 ≤ 90) := by omega
    rw [e, pyLower, if_neg h2]
  · have e : pyLower c = c := by rw [pyLower, if_neg h]
    rw [e]
    exact e

theorem isSpace_pyLower (c : Nat) : isSpace (pyLower c) = isSpace c := by
  by_cases h : 65 ≤ c ∧ c ≤ 90
  · simp only [pyLower, if_pos h, isSpace]
    exact decide_eq_decide.mpr (by omega)
  · simp [pyLower, h]

theorem mapLower_idem (s : PyStr) : mapLower (mapLower s) = mapLower s := by
  induction s with
  | nil => rfl
  | cons a t ih =>
      simp only [mapLower, List.map_cons] at ih ⊢
      rw [pyLower_idem]
      exact congrArg _ ih

theorem dropWhile_isSpace_map_pyLower (s : PyStr) :
    (s.map pyLower).dropWhile isSpace = (s.dropWhile isSpace).map pyLower := by
  induction s with
  | nil => rfl
  | cons a t ih =>
      simp only [List.map_cons, List.dropWhile_cons, isSpace_pyLower]
      by_cases h : isSpace a = true
      · simp [h, ih]
      · simp [h]

theorem dropWhile_idem (p : Nat → Bool) (l : List Nat) :
    (l.dropWhile p).dropWhile p = l.dropWhile p := by
  induction l with
  | nil => rfl
  | cons a t ih =>
      by_cases h : p a = true
      · simp [List.dropWhile_cons, h, ih]
      · simp [List.dropWhile_cons, h]

theorem dropWhile_head_false {p : Nat → Bool} {l t : List Nat} {b : Nat}
    (h : l.dropWhile p = b :: t) : p b = false := by
  induction l with
  | nil => simp [List.dropWhile] at h
  | cons a l ih =>
      rw [List.dropWhile_cons] at h
      by_cases hp : p a = true
      · rw [if_pos hp] at h
        exact ih h
      · rw [if_neg hp] at h
        cases h
        simpa using hp

theorem rtrim_append (l : List Nat) : ∃ t, rtrim l ++ t = l := by
  refine ⟨(l.reverse.takeWhile isSpace).reverse, ?_⟩
  unfold rtrim
  rw [← List.reverse_append, List.takeWhile_append_dropWhile, List.reverse_reverse]

theorem ltrim_ltrim (l : PyStr) : ltrim (ltrim l) = ltrim l :=
  dropWhile_idem isSpace l

theorem rtrim_rtrim (l : PyStr) : rtrim (rtrim l) = rtrim l := by
  unfold rtrim
  rw [List.reverse_reverse, dropWhile_idem]

theorem ltrim_rtrim_ltrim (l : PyStr) :
    ltrim (rtrim (ltrim l)) = rtrim (ltrim l) := by
  obtain ⟨t, ht⟩ := rtrim_append (ltrim l)
  cases hX : rtrim (ltrim l) with
  | nil => simp [ltrim]
  | cons b m =>
      rw [hX] at ht
      have hlt : ltrim l = b :: (m ++ t) := by
        rw [← ht]
        simp
      have hb : isSpace b = false := dropWhile_head_false (p := isSpace) hlt
      simp [ltrim, List.dropWhile_cons, hb]

theorem pyStrip_idem (l : PyStr) : pyStrip (pyStrip l) = pyStrip l := by
  unfold pyStrip
  rw [ltrim_rtrim_ltrim, rtrim_rtrim]

theorem ltrim_mapLower (l : PyStr) : ltrim (mapLower l) = mapLower (ltrim l) :=
  dropWhile_isSpace_map_pyLower l

theorem rtrim_mapLower (l : PyStr) : rtrim (mapLower l) = mapLower (rtrim l) := by
  unfold rtrim mapLower
  rw [← List.map_reverse, dropWhile_isSpace_map_pyLower, ← List.map_reverse]

theorem pyStrip_mapLower (l : PyStr) :
    pyStrip (mapLower l) = mapLower (pyStrip l) := by
  unfold pyStrip
  rw [ltrim_mapLower, rtrim_mapLower]

theorem normalizeLabel_idem (l : PyStr) :
    normalizeLabel (normalizeLabel l) = normalizeLabel l := by
  unfold normalizeLabel
  rw [← pyStrip_mapLower, mapLower_idem, pyStrip_idem]

theorem genNormalize_eq_normalizeLabel (l : PyStr) :
    genNormalize l = normalizeLabel l :=
  (pyStrip_mapLower l).symm

theorem alSet_not_mem {m : SecretsMap} {k : PyStr} (v : Text)
    (h : k ∉ alKeys m) : alSet m k v = m ++ [(k, v)] := by
  induction m with
  | nil => rfl
  | cons a rest ih =>
      obtain ⟨k', v'⟩ := a
      have hcons : alKeys ((k', v') :: rest) = k' :: alKeys rest := rfl
      have h1 : k' ≠ k := by
        intro e
        apply h
        rw [hcons, e]
        exact List.mem_cons_self _ _
      have h2 : k ∉ alKeys rest := by
        intro e
        exact h (by rw [hcons]; exact List.mem_cons_of_mem _ e)
      simp [alSet, h1, ih h2]

theorem alKeys_alSet (m : SecretsMap) (k : PyStr) (v : Text) :
    alKeys (alSet m k v) =
      if k ∈ alKeys m then alKeys m else alKeys m ++ [k] := by
  induction m with
  | nil => rfl
  | cons a rest ih =>
      obtain ⟨k', v'⟩ := a
      by_cases e : k' = k
      · subst e
        simp [alSet, alKeys]
      · simp only [alSet, if_neg e, alKeys, List.map_cons]
        by_cases hm : k ∈ alKeys rest
        · simp only [alKeys] at hm ih
          simp [hm, e, ih, Ne.symm e]
        · simp only [alKeys] at hm ih
          simp [hm, e, ih, Ne.symm e]

theorem mem_alSet {m : SecretsMap} {k : PyStr} {v : Text} {p : PyStr × Text} :
    p ∈ alSet m k v → p ∈ m ∨ p = (k, v) := by
  induction m with
  | nil =>
      intro h
      simp only [alSet, List.mem_singleton] at h
      exact Or.inr h
  | cons a rest ih =>
      intro h
      obtain ⟨k', v'⟩ := a
      by_cases e : k' = k
      · subst e
        simp only [alSet, if_true, eq_self_iff_true, List.mem_cons] at h
        rcases h with h1 | h1
        · exact Or.inr h1
        · exact Or.inl (List.mem_cons_of_mem _ h1)
      · simp only [alSet, if_neg e, List.mem_cons] at h
        rcases h with h | h
        · exact Or.inl (by rw [h]; exact List.mem_cons_self _ _)
        · rcases ih h with h' | h'
          · exact Or.inl (List.mem_cons_of_mem _ h')
          · exact Or.inr h'

theorem goodMap_alSet {m : SecretsMap} {k : PyStr} {v : Text}
    (hm : goodMap m) (hk : normalizeLabel k = k) (hne : k ≠ []) :
    goodMap (alSet m k v) := by
  constructor
  · intro p hp
    rcases mem_alSet hp with h | h
    · exact hm.1 p h
    · subst h
      exact ⟨hk, hne⟩
  · rw [alKeys_alSet]
    split
    · exact hm.2
    · rename_i hmem
      refine List.Nodup.append hm.2 (List.nodup_singleton k) ?_
      intro a ha hb
      rw [List.mem_singleton] at hb
      subst hb
      exact hmem ha

theorem resolveCore_good (key : Option EncryptionKey) (emptyErr : Err) :
    ∀ (es : List (PyStr × Text)) (acc m : SecretsMap),
      resolveCore key emptyErr es acc = Except.ok m → goodMap acc → goodMap m := by
  intro es
  induction es with
  | nil =>
      intro acc m h hg
      simp only [resolveCore] at h
      cases h
      exact hg
  | cons a rest ih =>
      intro acc m h hg
      obtain ⟨label, stored⟩ := a
      simp only [resolveCore] at h
      by_cases hl : normalizeLabel label = []
      · rw [if_pos hl] at h
        exact ih acc m h hg
      · rw [if_neg hl] at h
        by_cases he : (Text.strip stored).isEmptyText = true
        · rw [if_pos he] at h
          cases h
        · rw [if_neg he] at h
          cases key with
          | none =>
              exact ih _ m h (goodMap_alSet hg (normalizeLabel_idem label) hl)
          | some k =>
              dsimp only at h
              cases hd : k.decrypt_from_text (Text.strip stored) with
              | ok pt =>
                  rw [hd] at h
                  exact ih _ m h (goodMap_alSet hg (normalizeLabel_idem label) hl)
              | error e =>
                  rw [hd] at h
                  cases h

theorem resolveCore_reencrypt (nk : EncryptionKey) (nonce : Nat) (emptyErr : Err) :
    ∀ (m acc : SecretsMap),
      (∀ p ∈ m, normalizeLabel p.1 = p.1 ∧ p.1 ≠ []) →
      (alKeys m).Nodup →
      (∀ p ∈ m, p.1 ∉ alKeys acc) →
      resolveCore (some nk) emptyErr (reencrypt nk nonce m) acc =
        Except.ok (acc ++ m) := by
  intro m
  induction m with
  | nil =>
      intro acc _ _ _
      simp [reencrypt, resolveCore]
  | cons p rest ih =>
      intro acc hgood hnodup hdisj
      obtain ⟨l, v⟩ := p
      have hl : normalizeLabel l = l := (hgood _ (List.mem_cons_self _ _)).1
      have hne : l ≠ [] := (hgood _ (List.mem_cons_self _ _)).2
      have hfresh : l ∉ alKeys acc := hdisj _ (List.mem_cons_self _ _)
      have hnotin : l ∉ alKeys rest := by
        have hcopy := hnodup
        rw [show alKeys ((l, v) :: rest) = l :: alKeys rest from rfl] at hcopy
        exact (List.nodup_cons.mp hcopy).1
      simp only [reencrypt, List.map_cons, resolveCore, hl]
      rw [if_neg hne]
      simp only [Text.strip, Text.isEmptyText, Bool.false_eq_true, if_false,
        EncryptionKey.decrypt_from_text, eq_self_iff_true, if_true]
      rw [alSet_not_mem _ hfresh]
      have step := ih (acc ++ [(l, v)])
        (fun q hq => hgood q (List.mem_cons_of_mem _ hq))
        (by
          rw [show alKeys ((l, v) :: rest) = l :: alKeys rest from rfl] at hnodup
          exact (List.nodup_cons.mp hnodup).2)
        (by
          intro q hq
          have h1 : q.1 ∉ alKeys acc := hdisj _ (List.mem_cons_of_mem _ hq)
          have h2 : q.1 ≠ l := by
            intro e
            apply hnotin
            rw [← e]
            exact List.mem_map_of_mem Prod.fst hq
          intro hmem
          have hkeys : alKeys (acc ++ [(l, v)]) = alKeys acc ++ [l] := by
            simp [alKeys]
          rw [hkeys, List.mem_append, List.mem_singleton] at hmem
          rcases hmem with hmem | hmem
          · exact h1 hmem
          · exact h2 hmem)
      rw [show List.map (fun p => (p.1, Text.token nk.id nonce p.2)) rest
            = reencrypt nk nonce rest from rfl]
      rw [step]
      simp

theorem resolveCore_wrongKey (key : EncryptionKey) (emptyErr : Err) (kid : KeyId)
    (hne : kid ≠ key.id) :
    ∀ (es : List (PyStr × Text)) (acc : SecretsMap),
      (∀ p ∈ es, ∃ n m, p.2 = Text.token kid n m) →
      (∃ p ∈ es, normalizeLabel p.1 ≠ []) →
      resolveCore (some key) emptyErr es acc = Except.error Err.invalidToken := by
  intro es
  induction es with
  | nil =>
      intro acc _ hex
      obtain ⟨p, hp, _⟩ := hex
      cases hp
  | cons q rest ih =>
      intro acc htok hex
      obtain ⟨l, s⟩ := q
      obtain ⟨n, msg, hs⟩ := htok _ (List.mem_cons_self _ _)
      simp only at hs
      subst hs
      simp only [resolveCore]
      by_cases hl : normalizeLabel l = []
      · rw [if_pos hl]
        apply ih acc (fun p hp => htok p (List.mem_cons_of_mem _ hp))
        obtain ⟨p, hp, hpn⟩ := hex
        rw [List.mem_cons] at hp
        rcases hp with hp | hp
        · exfalso
          apply hpn
          rw [hp]
          exact hl
        · exact ⟨p, hp, hpn⟩
      · rw [if_neg hl]
        simp only [Text.strip, Text.isEmptyText, Bool.false_eq_true, if_false,
          EncryptionKey.decrypt_from_text, if_neg hne]

theorem resolveCore_eq_spec (key : Option EncryptionKey) (emptyErr : Err) :
    ∀ (es : List (PyStr × Text)) (acc : SecretsMap),
      resolveCore key emptyErr es acc =
        match exceptMapM (entryResolve key emptyErr) es with
        | Except.error e => Except.error e
        | Except.ok os => Except.ok (specAssemble acc os) := by
  intro es
  induction es with
  | nil => intro acc; rfl
  | cons a rest ih =>
      intro acc
      obtain ⟨label, stored⟩ := a
      by_cases hl : normalizeLabel label = []
      · have hL : resolveCore key emptyErr ((label, stored) :: rest) acc =
            resolveCore key emptyErr rest acc := by
          simp only [resolveCore]
          rw [if_pos hl]
        have hE : entryResolve key emptyErr (label, stored) = Except.ok none := by
          simp only [entryResolve]
          rw [if_pos hl]
        rw [hL, ih acc]
        simp only [exceptMapM, hE]
        cases exceptMapM (entryResolve key emptyErr) rest with
        | error e => rfl
        | ok os => simp [specAssemble]
      · by_cases he : (stored.strip).isEmptyText = true
        · have hL : resolveCore key emptyErr ((label, stored) :: rest) acc =
              Except.error emptyErr := by
            simp only [resolveCore]
            rw [if_neg hl, if_pos he]
          have hE : entryResolve key emptyErr (label, stored) =
              Except.error emptyErr := by
            simp only [entryResolve]
            rw [if_neg hl, if_pos he]
          rw [hL]
          simp only [exceptMapM, hE]
        · cases key with
          | none =>
              have hL : resolveCore none emptyErr ((label, stored) :: rest) acc =
                  resolveCore none emptyErr rest
                    (alSet acc (normalizeLabel label) stored.strip) := by
                simp only [resolveCore]
                rw [if_neg hl, if_neg he]
              have hE : entryResolve none emptyErr (label, stored) =
                  Except.ok (some (normalizeLabel label, stored.strip)) := by
                simp only [entryResolve]
                rw [if_neg hl, if_neg he]
              rw [hL, ih]
              simp only [exceptMapM, hE]
              cases exceptMapM (entryResolve none emptyErr) rest with
              | error e => rfl
              | ok os => simp [specAssemble]
          | some k =>
              cases hd : k.decrypt_from_text stored.strip with
              | ok pt =>
                  have hL : resolveCore (some k) emptyErr ((label, stored) :: rest) acc =
                      resolveCore (some k) emptyErr rest
                        (alSet acc (normalizeLabel label) pt) := by
                    simp only [resolveCore]
                    rw [if_neg hl, if_neg he]
                    rw [hd]
                  have hE : entryResolve (some k) emptyErr (label, stored) =
                      Except.ok (some (normalizeLabel label, pt)) := by
                    simp only [entryResolve]
                    rw [if_neg hl, if_neg he]
                    rw [hd]
                  rw [hL, ih]
                  simp only [exceptMapM, hE]
                  cases exceptMapM (entryResolve (some k) emptyErr) rest with
                  | error e => rfl
                  | ok os => simp [specAssemble]
              | error e =>
                  have hL : resolveCore (some k) emptyErr ((label, stored) :: rest) acc =
                      Except.error e := by
                    simp only [resolveCore]
                    rw [if_neg hl, if_neg he]
                    rw [hd]
                  have hE : entryResolve (some k) emptyErr (label, stored) =
                      Except.error e := by
                    simp only [entryResolve]
                    rw [if_neg hl, if_neg he]
                    rw [hd]
                  rw [hL]
                  simp only [exceptMapM, hE]

theorem goodMap_nil : goodMap [] :=
  ⟨fun p hp => absurd hp (List.not_mem_nil p), List.nodup_nil⟩

/-- C1: for every key, nonce and value, decrypting the result of
encrypting that value under the same key returns the value exactly
(`decrypt_from_text` after `encrypt_to_text` is the identity). -/
theorem c1_encrypt_decrypt_roundtrip (k : EncryptionKey) (nonce : Nat) (t : Text) :
    k.decrypt_from_text (k.encrypt_to_text nonce t) = Except.ok t := by
  simp [EncryptionKey.encrypt_to_text, EncryptionKey.decrypt_from_text]

/-- C2: for every pair of distinct keys, decrypting a token produced
under the first key with the second always fails with `InvalidToken` and
never returns a plaintext. -/
theorem c2_key_isolation (k1 k2 : EncryptionKey) (h : k1 ≠ k2)
    (nonce : Nat) (t : Text) :
    k2.decrypt_from_text (k1.encrypt_to_text nonce t) =
      Except.error Err.invalidToken := by
  have hid : k1.id ≠ k2.id := by
    intro e
    apply h
    cases k1
    cases k2
    cases e
    rfl
  simp [EncryptionKey.encrypt_to_text, EncryptionKey.decrypt_from_text, hid]

theorem c2_key_isolation_witness :
    (⟨KeyId.random 0⟩ : EncryptionKey) ≠ ⟨KeyId.random 1⟩ ∧
    EncryptionKey.decrypt_from_text ⟨KeyId.random 1⟩
        (EncryptionKey.encrypt_to_text ⟨KeyId.random 0⟩ 5 (Text.plain [65])) =
      Except.error Err.invalidToken :=
  ⟨by decide, c2_key_isolation ⟨KeyId.random 0⟩ ⟨KeyId.random 1⟩ (by decide) 5 (Text.plain [65])⟩

/-- C3: migration fidelity.  If `resolve_secrets` of the pre-migration
store succeeds with map `m`, then resolving the store written by the
V2-to-V3 migration (`upgrade_config`) under the new key yields exactly
`m` again; likewise the V1-to-V2 conversion of the older CLI revision
preserves the resolved map exactly — same labels, same plaintext values,
nothing added, dropped or merged. -/
theorem c3_migration_fidelity
    (storeA : StoreData) (oldKey : Option EncryptionKey) (m : SecretsMap)
    (nk : EncryptionKey) (nonce : Nat) (salt : PyStr)
    (storeB : StoreData) (k2 : EncryptionKey) (m2 : SecretsMap) (nonce2 : Nat)
    (hA : buildSecretMap oldKey storeA = Except.ok m)
    (hB1 : storeB.format_version = 1)
    (hB : getSecrets k2 storeB = Except.ok m2) :
    buildSecretMap (some nk) (upgradedStore m nk nonce salt) = Except.ok m ∧
    (∀ st2, convertV1ToV2 k2 nonce2 storeB = Except.ok st2 →
      getSecrets k2 st2 = Except.ok m2) := by
  have gA : goodMap m := resolveCore_good _ _ _ _ _ hA goodMap_nil
  constructor
  · show resolveCore (some nk) Err.tetripin (reencrypt nk nonce m) [] = Except.ok m
    have step := resolveCore_reencrypt nk nonce Err.tetripin m [] gA.1 gA.2
      (by intro p hp; simp [alKeys])
    simpa using step
  · intro st2 hconv
    have gB : goodMap m2 := resolveCore_good _ _ _ _ _ hB goodMap_nil
    unfold convertV1ToV2 at hconv
    rw [hB] at hconv
    cases hconv
    show resolveCore (if (2 : Nat) > 1 then some k2 else none) Err.attributeError
      (reencrypt k2 nonce2 m2) [] = Except.ok m2
    rw [if_pos (by omega)]
    have step := resolveCore_reencrypt k2 nonce2 Err.attributeError m2 [] gB.1 gB.2
      (by intro p hp; simp [alKeys])
    simpa using step

theorem c3_migration_fidelity_witness :
    buildSecretMap (some ⟨KeyId.derived [112] [9]⟩)
        (upgradedStore [([103], Text.plain [74])] ⟨KeyId.derived [112] [9]⟩ 1 [9]) =
      Except.ok [([103], Text.plain [74])] ∧
    getSecrets ⟨KeyId.random 2⟩
        ⟨2, reencrypt ⟨KeyId.random 2⟩ 0 [([104], Text.plain [75])], none⟩ =
      Except.ok [([104], Text.plain [75])] := by
  have h := c3_migration_fidelity
    ⟨2, [([103], Text.token (KeyId.random 0) 0 (Text.plain [74]))], none⟩
    (some ⟨KeyId.random 0⟩) [([103], Text.plain [74])]
    ⟨KeyId.derived [112] [9]⟩ 1 [9]
    ⟨1, [([104], Text.plain [75])], none⟩ ⟨KeyId.random 2⟩
    [([104], Text.plain [75])] 0 rfl rfl rfl
  exact ⟨h.1, h.2 _ rfl⟩

/-- C4 (code bug): the `format_version == 3` check in `upgrade_config`
(`cli.py` line 245) only echoes `nothing to do` and does not return, so on
a store already at version 3 the command still creates a backup, derives a
new key, caches it, and rewrites the file with a fresh salt — the written
store differs from the original.  This evaluates the model at the failing
input. -/
theorem c4_v3_migration_not_noop :
    upgradeConfig
        ⟨3, [([97], Text.token (KeyId.random 0) 0 (Text.plain [66]))], some [1]⟩
        (some ⟨KeyId.random 0⟩) [112] [2] 5 =
      UpgradeOut.ok
        [Ev.echoNothingToDo, Ev.backup, Ev.derive [112] [2],
         Ev.keyringSet ⟨KeyId.derived [112] [2]⟩,
         Ev.fileWrite
           ⟨3, [([97], Text.token (KeyId.derived [112] [2]) 5 (Text.plain [66]))],
            some [2]⟩,
         Ev.keyringSet ⟨KeyId.derived [112] [2]⟩] ∧
    (⟨3, [([97], Text.token (KeyId.derived [112] [2]) 5 (Text.plain [66]))],
      some [2]⟩ : StoreData) ≠
      ⟨3, [([97], Text.token (KeyId.random 0) 0 (Text.plain [66]))], some [1]⟩ :=
  ⟨rfl, by decide⟩

/-- C5 counterexample: on a `format_version = 1` store whose stored secret
is plain text, `build_secret_map_from_toml` still attempts decryption as
soon as a key object is available (`if key:` at `utils.py` line 201) and
fails with `InvalidToken`, instead of returning the stored secret
unchanged as the claim asserts for version-1 stores. -/
theorem c5_counterexample :
    buildSecretMap (some ⟨KeyId.random 0⟩)
        ⟨1, [([103], Text.plain [74, 66])], none⟩ =
      Except.error Err.invalidToken ∧
    (Except.error Err.invalidToken : Except Err SecretsMap) ≠
      Except.ok [([103], Text.plain [74, 66])] :=
  ⟨rfl, fun h => Except.noConfusion h⟩

/-- C5 amended: `build_secret_map_from_toml` normalizes each label, fails
with the typed error when a trimmed secret is empty, and decrypts exactly
when a key object is supplied — the store's `format_version` is never
consulted (two stores with the same accounts resolve identically whatever
their versions and salts), and the whole function agrees with the
phase-structured reference semantics `resolveSpec` built from those
words. -/
theorem c5_resolve_decrypts_iff_key_supplied
    (key : Option EncryptionKey) (store store2 : StoreData)
    (hacc : store.account = store2.account) :
    buildSecretMap key store = buildSecretMap key store2 ∧
    buildSecretMap key store = resolveSpec key Err.tetripin store.account := by
  constructor
  · unfold buildSecretMap
    rw [hacc]
  · unfold buildSecretMap resolveSpec
    exact resolveCore_eq_spec key Err.tetripin store.account []

theorem c5_resolve_decrypts_iff_key_supplied_witness :
    buildSecretMap (some ⟨KeyId.random 0⟩)
        ⟨1, [([103], Text.token (KeyId.random 0) 0 (Text.plain [74]))], none⟩ =
      buildSecretMap (some ⟨KeyId.random 0⟩)
        ⟨3, [([103], Text.token (KeyId.random 0) 0 (Text.plain [74]))], some [2]⟩ ∧
    buildSecretMap (some ⟨KeyId.random 0⟩)
        ⟨1, [([103], Text.token (KeyId.random 0) 0 (Text.plain [74]))], none⟩ =
      resolveSpec (some ⟨KeyId.random 0⟩) Err.tetripin
        [([103], Text.token (KeyId.random 0) 0 (Text.plain [74]))] :=
  c5_resolve_decrypts_iff_key_supplied (some ⟨KeyId.random 0⟩)
    ⟨1, [([103], Text.token (KeyId.random 0) 0 (Text.plain [74]))], none⟩
    ⟨3, [([103], Text.token (KeyId.random 0) 0 (Text.plain [74]))], some [2]⟩ rfl

/-- C6: unlocking a v3 store with an incorrect password — all stored
secrets are tokens of the key derived from the real password `p0`, and the
typed password differs from `p0` — reports `This password is incorrect`
and leaves both the key cache and the store file exactly as they were;
the wrongly derived key is never cached. -/
theorem c6_unlock_wrong_password_fail_closed
    (store : StoreData) (kr0 : Option EncryptionKey) (salt p0 pw : PyStr)
    (hver : store.format_version = 3)
    (hsalt : store.salt = some salt)
    (htok : ∀ p ∈ store.account, ∃ n m, p.2 = Text.token (KeyId.derived p0 salt) n m)
    (hpw : pw ≠ p0)
    (hsome : ∃ p ∈ store.account, normalizeLabel p.1 ≠ []) :
    unlock store kr0 pw = ⟨UnlockOut.failIncorrectPassword, kr0, store⟩ := by
  have hkey : KeyId.derived p0 salt ≠ (EncryptionKey.from_password pw salt).id := by
    intro e
    injection e with e1 e2
    exact hpw e1.symm
  have hfail : buildSecretMap (some (EncryptionKey.from_password pw salt)) store =
      Except.error Err.invalidToken :=
    resolveCore_wrongKey (EncryptionKey.from_password pw salt) Err.tetripin
      (KeyId.derived p0 salt) hkey store.account [] htok hsome
  unfold unlock
  rw [hsalt]
  dsimp only
  rw [hfail]

theorem c6_unlock_wrong_password_fail_closed_witness :
    unlock ⟨3, [([97], Text.token (KeyId.derived [1] [2]) 0 (Text.plain [66]))], some [2]⟩
        none [3] =
      ⟨UnlockOut.failIncorrectPassword, none,
       ⟨3, [([97], Text.token (KeyId.derived [1] [2]) 0 (Text.plain [66]))], some [2]⟩⟩ :=
  c6_unlock_wrong_password_fail_closed
    ⟨3, [([97], Text.token (KeyId.derived [1] [2]) 0 (Text.plain [66]))], some [2]⟩
    none [2] [1] [3] rfl rfl
    (by
      intro p hp
      rw [List.mem_singleton] at hp
      subst hp
      exact ⟨0, Text.plain [66], rfl⟩)
    (by decide)
    ⟨([97], Text.token (KeyId.derived [1] [2]) 0 (Text.plain [66])),
     List.mem_singleton.mpr rfl, by decide⟩

/-- C7 counterexample: on a concrete v2 store the successful
`upgrade_config` trace caches the new key (index 2) *before* the file
write (index 3) — `keyring.set_password` at `cli.py` line 270 precedes the
rewrite at lines 275-276 — so the claimed ordering property
`cachedOnlyAfterWrite` is false of the actual trace. -/
theorem c7_counterexample :
    upgradeConfig ⟨2, [([97], Text.token (KeyId.random 0) 0 (Text.plain [66]))], none⟩
        (some ⟨KeyId.random 0⟩) [112] [2] 5 =
      UpgradeOut.ok
        [Ev.backup, Ev.derive [112] [2],
         Ev.keyringSet ⟨KeyId.derived [112] [2]⟩,
         Ev.fileWrite
           ⟨3, [([97], Text.token (KeyId.derived [112] [2]) 5 (Text.plain [66]))],
            some [2]⟩,
         Ev.keyringSet ⟨KeyId.derived [112] [2]⟩] ∧
    ¬ cachedOnlyAfterWrite
        [Ev.backup, Ev.derive [112] [2],
         Ev.keyringSet ⟨KeyId.derived [112] [2]⟩,
         Ev.fileWrite
           ⟨3, [([97], Text.token (KeyId.derived [112] [2]) 5 (Text.plain [66]))],
            some [2]⟩,
         Ev.keyringSet ⟨KeyId.derived [112] [2]⟩] := by
  refine ⟨rfl, ?_⟩
  intro hca
  have h32 : (3 : Nat) < (2 : Nat) := hca ⟨2, by decide⟩ ⟨3, by decide⟩ rfl rfl
  omega

/-- C7 amended: `upgrade_config` creates the backup before any other side
effect (in particular before any keyring write and before the file write);
on success, every secret of the resolved map is re-encrypted under the new
password-derived key and written with `format_version = 3` and the new
salt — but the new key is cached immediately after derivation, *before*
the file write, and cached a second time after it; when resolving the old
store fails, the only side effect performed is the backup (plus the
version echo), so the pre-migration file stays recoverable. -/
theorem c7_amended_effect_order
    (store : StoreData) (oldKey : Option EncryptionKey)
    (pw saltB : PyStr) (nonce : Nat) :
    (∀ m, buildSecretMap oldKey store = Except.ok m →
      upgradeConfig store oldKey pw saltB nonce =
        UpgradeOut.ok
          ((if store.format_version = 3 then [Ev.echoNothingToDo] else []) ++
           [Ev.backup, Ev.derive pw saltB,
            Ev.keyringSet (EncryptionKey.from_password pw saltB),
            Ev.fileWrite (upgradedStore m (EncryptionKey.from_password pw saltB) nonce saltB),
            Ev.keyringSet (EncryptionKey.from_password pw saltB)])) ∧
    (∀ e, buildSecretMap oldKey store = Except.error e →
      upgradeConfig store oldKey pw saltB nonce =
        UpgradeOut.fail
          ((if store.format_version = 3 then [Ev.echoNothingToDo] else []) ++
           [Ev.backup]) e) := by
  constructor
  · intro m hm
    unfold upgradeConfig
    rw [hm]
  · intro e he
    unfold upgradeConfig
    rw [he]

theorem c7_amended_effect_order_witness :
    upgradeConfig ⟨2, [([97], Text.token (KeyId.random 0) 0 (Text.plain [66]))], none⟩
        (some ⟨KeyId.random 0⟩) [112] [2] 5 =
      UpgradeOut.ok
        ((if (⟨2, [([97], Text.token (KeyId.random 0) 0 (Text.plain [66]))], none⟩ :
            StoreData).format_version = 3 then [Ev.echoNothingToDo] else []) ++
         [Ev.backup, Ev.derive [112] [2],
          Ev.keyringSet (EncryptionKey.from_password [112] [2]),
          Ev.fileWrite (upgradedStore [([97], Text.plain [66])]
            (EncryptionKey.from_password [112] [2]) 5 [2]),
          Ev.keyringSet (EncryptionKey.from_password [112] [2])]) :=
  (c7_amended_effect_order
    ⟨2, [([97], Text.token (KeyId.random 0) 0 (Text.plain [66]))], none⟩
    (some ⟨KeyId.random 0⟩) [112] [2] 5).1 [([97], Text.plain [66])] rfl

/-- C8 counterexample: with an account stored under the raw label
`Example`, adding the label `example ` — equal to it after normalization —
does *not* fail: the duplicate check of `add` (`cli.py` line 131) compares
the raw label against the raw stored keys, so a second entry is inserted. -/
theorem c8_counterexample :
    normalizeLabel [69, 120, 97, 109, 112, 108, 101] =
      normalizeLabel [101, 120, 97, 109, 112, 108, 101, 32] ∧
    addAccount
        ⟨3, [([69, 120, 97, 109, 112, 108, 101],
              Text.token (KeyId.random 0) 0 (Text.plain [74]))], some [2]⟩
        (some ⟨KeyId.random 0⟩) [101, 120, 97, 109, 112, 108, 101, 32] [74] 1 =
      AddOut.added
        ⟨3, [([69, 120, 97, 109, 112, 108, 101],
              Text.token (KeyId.random 0) 0 (Text.plain [74])),
             ([101, 120, 97, 109, 112, 108, 101, 32],
              Text.token (KeyId.random 0) 1 (Text.plain [74]))], some [2]⟩ :=
  ⟨by decide, rfl⟩

/-- C8 amended: the duplicate check of `add` fires exactly on raw label
equality — and its failure branch is the non-existent `click.fail`, an
untyped crash, not a typed `DuplicateAccountError`; a label that is only a
casing/whitespace variant of a stored one is appended as a separate raw
entry; querying is unaffected: the `gen` normalization agrees with the
resolve normalization, and every key of a resolved map is in normalized
form, so any casing/whitespace variant of a stored label resolves to the
same entry. -/
theorem c8_amended_duplicate_check_is_raw :
    (∀ (store : StoreData) (key : Option EncryptionKey) (l sec : PyStr) (n : Nat),
      l ∈ alKeys store.account →
      addAccount store key l sec n = AddOut.clickFailCrash) ∧
    (∀ (store : StoreData) (k : EncryptionKey) (l sec : PyStr) (n : Nat),
      l ∉ alKeys store.account → store.format_version ≠ 1 →
      addAccount store (some k) l sec n =
        AddOut.added ⟨store.format_version,
          store.account ++ [(l, Text.token k.id n (Text.plain sec))], store.salt⟩) ∧
    (∀ q : PyStr, genNormalize q = normalizeLabel q) ∧
    (∀ (key : Option EncryptionKey) (store : StoreData) (m : SecretsMap),
      buildSecretMap key store = Except.ok m →
      ∀ p ∈ m, normalizeLabel p.1 = p.1) := by
  refine ⟨?_, ?_, genNormalize_eq_normalizeLabel, ?_⟩
  · intro store key l sec n h
    unfold addAccount
    rw [if_pos h]
  · intro store k l sec n h hv
    unfold addAccount
    rw [if_neg h, if_neg hv]
    dsimp only
    rw [alSet_not_mem _ h]
  · intro key store m hm p hp
    exact ((resolveCore_good _ _ _ _ _ hm goodMap_nil).1 p hp).1

theorem c8_amended_duplicate_check_is_raw_witness :
    addAccount ⟨3, [([97], Text.plain [74])], some [2]⟩ (some ⟨KeyId.random 0⟩)
        [97] [75] 1 = AddOut.clickFailCrash ∧
    addAccount ⟨3, [([97], Text.plain [74])], some [2]⟩ (some ⟨KeyId.random 0⟩)
        [98] [75] 1 =
      AddOut.added ⟨3, [([97], Text.plain [74]),
        ([98], Text.token (KeyId.random 0) 1 (Text.plain [75]))], some [2]⟩ ∧
    genNormalize [69, 120, 32] = normalizeLabel [69, 120, 32] ∧
    normalizeLabel [103] = [103] := by
  refine ⟨?_, ?_, ?_, ?_⟩
  · exact c8_amended_duplicate_check_is_raw.1
      ⟨3, [([97], Text.plain [74])], some [2]⟩ (some ⟨KeyId.random 0⟩)
      [97] [75] 1 (by decide)
  · exact c8_amended_duplicate_check_is_raw.2.1
      ⟨3, [([97], Text.plain [74])], some [2]⟩ ⟨KeyId.random 0⟩
      [98] [75] 1 (by decide) (by decide)
  · exact c8_amended_duplicate_check_is_raw.2.2.1 [69, 120, 32]
  · exact (c8_amended_duplicate_check_is_raw.2.2.2 (some ⟨KeyId.random 0⟩)
      ⟨3, [([103], Text.token (KeyId.random 0) 0 (Text.plain [74]))], some [2]⟩
      [([103], Text.plain [74])] rfl ([103], Text.plain [74])
      (List.mem_singleton.mpr rfl))

/-- C9 counterexample: the store created on first use by
`ensure_secrets_file` has `format_version = 2`, not 1, and carries a
`salt` field, contradicting the claimed initial shape. -/
theorem c9_counterexample :
    (initialStoreUtils [0]).format_version ≠ 1 ∧
    (initialStoreUtils [0]).salt ≠ none := by
  constructor
  · decide
  · decide

/-- C9 amended: on first use the store is created empty — no accounts, and
it resolves to the empty map — but with `format_version = 2`:
`utils.ensure_secrets_file` additionally writes a `salt` field holding the
generated random bytes, while the older `tetripin.py` bootstrap writes no
salt. -/
theorem c9_initial_store_is_v2_empty (saltBytes : PyStr) :
    (initialStoreUtils saltBytes).format_version = 2 ∧
    (initialStoreUtils saltBytes).account = [] ∧
    (initialStoreUtils saltBytes).salt = some saltBytes ∧
    initialStoreTetripin.format_version = 2 ∧
    initialStoreTetripin.account = [] ∧
    initialStoreTetripin.salt = none ∧
    (∀ key, buildSecretMap key (initialStoreUtils saltBytes) = Except.ok []) ∧
    (∀ key, buildSecretMap key initialStoreTetripin = Except.ok []) :=
  ⟨rfl, rfl, rfl, rfl, rfl, rfl, fun _ => rfl, fun _ => rfl⟩

/-- C10 (code bug): `unlock` reads `data["salt"]` unguarded
(`cli.py` line 298); on a version-3 store file that simply lacks the
`salt` field this is an untyped Python `KeyError` crash, not a typed
`TetripinError` of the documented taxonomy.  This evaluates the model at
that failing input. -/
theorem c10_unlock_missing_salt_untyped_keyerror :
    unlock ⟨3, [], none⟩ none [112] =
      ⟨UnlockOut.keyErrorCrash, none, ⟨3, [], none⟩⟩ := rfl

end Tetripin
